import Mathlib

/-!
# PhoneSSH (psh) — verification of core claims

A shallow embedding of the core of the psh repository: the action-line
tokenizer and flag separation of the agent orchestrator (`cli/cmd/ai.go`),
the agentic loop and context store, the pairing-URL parser
(`cmd/pair.go`), the wire-protocol `Cmd` message codec, the agent-side
command dispatcher (`CommandRouter.kt`) and the session manager
(`PhoneSSHService.kt` / `KeyAuthManager.kt`).

Machine integers are modelled as `Int`/`Nat`; strings are Lean `String`s
(Go iterates runes, which matches `String.data`).  External collaborators
(command handlers, the language-model call, the network) are oracle
function parameters, as the spec declares them out of scope.
-/

/-- The double-quote character, U+0022 (written via `Char.ofNat` to keep
string scanning simple). -/
def dquoteChar : Char := Char.ofNat 34

/-- The single-quote character, U+0027. -/
def squoteChar : Char := Char.ofNat 39

/-! ## Action-line tokenizer — `parseCommand` in `cli/cmd/ai.go`

Go source:
```
func parseCommand(raw string) []string {
    var parts []string
    var current strings.Builder
    inQuote := false
    quoteChar := rune(0)
    for _, r := range raw {
        switch {
        case !inQuote && (r == dquote || r == squote):   // quote literals spelled out
            inQuote = true; quoteChar = r
        case inQuote && r == quoteChar:
            inQuote = false
        case !inQuote && r == ' ':
            if current.Len() > 0 { parts = append(parts, current.String()); current.Reset() }
        default:
            current.WriteRune(r)
        }
    }
    if current.Len() > 0 { parts = append(parts, current.String()) }
    return parts
}
```
-/

/-- One pass of the `for _, r := range raw` loop of `parseCommand`,
carrying the mutable state `(inQuote, quoteChar, current, parts)`. -/
def parseCommandAux : List Char → Bool → Char → String → List String → List String
  | [], _, _, current, parts =>
      if current.length > 0 then parts ++ [current] else parts
  | r :: rest, inQuote, quoteChar, current, parts =>
      if ¬inQuote ∧ (r = dquoteChar ∨ r = squoteChar) then
        parseCommandAux rest true r current parts
      else if inQuote ∧ r = quoteChar then
        parseCommandAux rest false quoteChar current parts
      else if ¬inQuote ∧ r = ' ' then
        if current.length > 0 then
          parseCommandAux rest inQuote quoteChar "" (parts ++ [current])
        else
          parseCommandAux rest inQuote quoteChar "" parts
      else
        parseCommandAux rest inQuote quoteChar (current.push r) parts

/-- Model of `parseCommand` from `cli/cmd/ai.go`: split an action line on spaces,
respecting single- and double-quoted spans. -/
def parseCommand (raw : String) : List String :=
  parseCommandAux raw.data false (Char.ofNat 0) "" []

/-! ## Flag separation — the loop over `cmdArgs` in `executeCommands` -/

/-- Model of `strings.HasPrefix s p` from the Go standard library, on rune lists
so that it evaluates inside the kernel. -/
def goHasDashDash (s : String) : Bool := ['-', '-'].isPrefixOf s.data

/-- Model of `strings.TrimPrefix t "--"` as used in `executeCommands` (only ever
applied to tokens that start with `--`): drop the two marker runes. -/
def dropDashDash (s : String) : String := String.mk (s.data.drop 2)

/-- Assignment `flags[key] = value` on a Go map, modelled on an
association list: overwrite an existing binding, else append. -/
def setFlag (m : List (String × String)) (k v : String) : List (String × String) :=
  if m.any (fun p => p.1 = k) then
    m.map (fun p => if p.1 = k then (k, v) else p)
  else
    m ++ [(k, v)]

/-- The `for i < len(cmdArgs)` loop of `executeCommands` in
`cli/cmd/ai.go`: separate `--flag value` pairs from positional
arguments.  The value of a flag is consumed only when the next token does not
itself start with `--`; a flag with no following value gets `"true"`. -/
def separateArgsAux : List String → List String → List (String × String) →
    List String × List (String × String)
  | [], args, flags => (args, flags)
  | [t], args, flags =>
      if goHasDashDash t then (args, setFlag flags (dropDashDash t) "true")
      else (args ++ [t], flags)
  | t :: v :: rest, args, flags =>
      if goHasDashDash t then
        if goHasDashDash v then
          separateArgsAux (v :: rest) args (setFlag flags (dropDashDash t) "true")
        else
          separateArgsAux rest args (setFlag flags (dropDashDash t) v)
      else
        separateArgsAux (v :: rest) (args ++ [t]) flags

/-- Flag/positional separation applied to the tokens after the command
word, starting from empty accumulators as in the Go loop. -/
def separateArgs (cmdArgs : List String) : List String × List (String × String) :=
  separateArgsAux cmdArgs [] []

/-! ## Orchestrator message model — `claudeMsg` and friends in `cli/cmd/ai.go`

`claudeMsg.Content` is `interface{}`, but the program only ever stores a
`string` or a `[]contentBlock` there (the tagged union of the spec
`TextContent | MultimodalContent`), so it is modelled as a two-case sum. -/

/-- Model of `imageSource` in `cli/cmd/ai.go`. -/
structure ImageSource where
  sourceType : String
  mediaType : String
  data : String
deriving DecidableEq

/-- Model of `contentBlock` in `cli/cmd/ai.go`. -/
structure ContentBlock where
  blockType : String
  text : String
  source : Option ImageSource
deriving DecidableEq

/-- The content of a `claudeMsg`: a plain string or a block list. -/
inductive MsgContent where
  | str (s : String)
  | blocks (bs : List ContentBlock)
deriving DecidableEq

/-- Model of `claudeMsg` in `cli/cmd/ai.go`. -/
structure ClaudeMsg where
  role : String
  content : MsgContent
deriving DecidableEq

/-- Model of `contextSavedMsg` in `cli/cmd/ai.go` — the on-disk record format;
content is always a plain string. -/
structure ContextSavedMsg where
  role : String
  content : String
deriving DecidableEq

/-- The record-building loop of `saveContext` in `cli/cmd/ai.go`: a
string content is kept, a `[]contentBlock` content becomes the literal
placeholder `"[screenshot]"`. -/
def saveContextRecords (msgs : List ClaudeMsg) : List ContextSavedMsg :=
  msgs.map (fun m =>
    { role := m.role
      content := match m.content with
        | .str s => s
        | .blocks _ => "[screenshot]" })

/-! ## `parseLines` — split the model reply into non-blank lines -/

/-- ASCII whitespace, the characters `strings.TrimSpace` trims in the
inputs this program sees. -/
def isSpaceChar (c : Char) : Bool := c = ' ' ∨ c = '\t' ∨ c = '\n' ∨ c = '\r'

/-- Model of `strings.TrimSpace` modelled on rune lists. -/
def goTrimSpace (s : String) : String :=
  String.mk (((s.data.dropWhile isSpaceChar).reverse.dropWhile isSpaceChar).reverse)

/-- Model of `strings.Split(text, "\n")` modelled on rune lists. -/
def splitNewlinesAux : List Char → List Char → List String
  | [], cur => [String.mk cur.reverse]
  | c :: rest, cur =>
      if c = '\n' then String.mk cur.reverse :: splitNewlinesAux rest []
      else splitNewlinesAux rest (c :: cur)

/-- Model of `parseLines` in `cli/cmd/ai.go`: split on newlines, trim each line,
keep the non-empty ones. -/
def parseLines (text : String) : List String :=
  ((splitNewlinesAux text.data []).map goTrimSpace).filter (fun l => l ≠ "")

/-! ## The agentic loop — `runAgenticLoop` in `cli/cmd/ai.go`

The two external effects, the language-model call (`callClaude`) and the
per-round command execution (`executeCommands`, which returns the base64
screenshot of the round or `""`), are oracle parameters:
`claude : List ClaudeMsg → Except String String` and
`exec : Nat → List String → String` (the `Nat` is the round index). -/

/-- A plain-text user turn. -/
def userTurn (q : String) : ClaudeMsg := { role := "user", content := .str q }

/-- A plain-text assistant turn. -/
def assistantTurn (s : String) : ClaudeMsg := { role := "assistant", content := .str s }

/-- The synthetic follow-up user turn built in the vision branch of
`runAgenticLoop`. -/
def screenshotTurn (b64 : String) : ClaudeMsg :=
  { role := "user"
    content := .blocks
      [ { blockType := "image", text := "",
          source := some { sourceType := "base64", mediaType := "image/png", data := b64 } }
      , { blockType := "text",
          text := "Here is the current screenshot of the phone screen. Analyze it and output the precise psh commands to complete the task.",
          source := none } ] }

/-- The `for round := 0; round < 3; round++` loop of `runAgenticLoop`:
returns the number of language-model calls made together with the error
or the final textual response (`""` when the loop exhausted its rounds
without a terminal round). -/
def agenticRounds (claude : List ClaudeMsg → Except String String)
    (exec : Nat → List String → String) :
    Nat → Nat → List ClaudeMsg → Nat × Except String String
  | 0, _, _ => (0, Except.ok "")
  | fuel + 1, round, msgs =>
      match claude msgs with
      | .error e => (1, .error e)
      | .ok resp =>
          let cmds := parseLines resp
          let msgs2 := msgs ++ [assistantTurn resp]
          let b64 := exec round cmds
          if b64 = "" then (1, .ok resp)
          else
            let r := agenticRounds claude exec fuel (round + 1)
              (msgs2 ++ [screenshotTurn b64])
            (r.1 + 1, r.2)

/-- Result of one `runAgenticLoop` invocation: how many language-model
calls were made, the outcome, and the context file written (if any). -/
structure LoopOutcome where
  claudeCalls : Nat
  result : Except String String
  savedFile : Option (List ContextSavedMsg)

/-- Model of `runAgenticLoop` in `cli/cmd/ai.go`: seed the transcript with the
loaded history plus the new user turn, run at most three rounds, then —
unless context is disabled or no final response was produced — persist
history + user turn + final response, truncated to the last 40 turns. -/
def runAgenticLoop (claude : List ClaudeMsg → Except String String)
    (exec : Nat → List String → String)
    (history : List ClaudeMsg) (query : String) (noContext : Bool) : LoopOutcome :=
  let userMsg : ClaudeMsg := userTurn query
  let callMessages := history ++ [userMsg]
  let r := agenticRounds claude exec 3 0 callMessages
  match r.2 with
  | .error e => { claudeCalls := r.1, result := .error e, savedFile := none }
  | .ok finalResponse =>
      if noContext = false ∧ finalResponse ≠ "" then
        let updated := history ++ [userMsg, assistantTurn finalResponse]
        let updated2 := if updated.length > 40 then updated.drop (updated.length - 40) else updated
        { claudeCalls := r.1, result := .ok finalResponse,
          savedFile := some (saveContextRecords updated2) }
      else
        { claudeCalls := r.1, result := .ok finalResponse, savedFile := none }

/-! ## Wire protocol values

`Result.data` maps string keys to arbitrary structured values, so a small
JSON value type stands for the dynamic values of Gson and of
`encoding/json`. -/

/-- A JSON value (the dynamic values carried by the wire protocol). -/
inductive JVal where
  | jnull
  | jbool (b : Bool)
  | jnum (n : Int)
  | jstr (s : String)
  | jarr (xs : List JVal)
  | jobj (fields : List (String × JVal))

/-- Model of `CmdMsg` (`cli/client/client.go` and `protocol/Messages.kt`): the Go
`Payload string` with tag `payload,omitempty` and the Kotlin
`payload: String? = null` are both the same optional field, modelled as
`Option String` (`none` ↔ Go `""` / omitted on the wire).  `flags` is a
string→string map with unique keys, in marshalling order. -/
structure CmdMsg where
  type : String
  id : String
  cmd : String
  args : List String
  flags : List (String × String)
  payload : Option String
deriving DecidableEq

/-- Model of `ResultMsg` (`cli/client/client.go` and `protocol/Messages.kt`). -/
structure ResultMsg where
  type : String
  id : String
  ok : Bool
  data : List (String × JVal)
  error : Option String

/-- Model of `resultOk` in `protocol/Messages.kt`. -/
def resultOk (id : String) (data : List (String × JVal)) : ResultMsg :=
  { type := "result", id := id, ok := true, data := data, error := none }

/-- Model of `resultErr` in `protocol/Messages.kt`. -/
def resultErr (id : String) (error : String) : ResultMsg :=
  { type := "result", id := id, ok := false, data := [], error := some error }

/-! ## Command dispatcher — `CommandRouter.dispatch` in `CommandRouter.kt`

The concrete handlers (`files.ls`, `system.status`, …) are external
collaborators; they appear as one oracle
`h : String → CmdMsg → ResultMsg` applied to the matched name. -/

/-- The command names registered in `CommandRouter.dispatch`. -/
def knownCommands : List String :=
  [ "ls", "find", "pull", "push", "rm", "mkdir", "stat",
    "status", "battery", "location", "screenshot", "volume",
    "brightness", "dnd", "wifi", "clipboard", "lock",
    "notifs", "sms", "apps",
    "open", "tap", "swipe", "type", "key", "click", "ui" ]

/-- Model of `CommandRouter.dispatch`: exact-name lookup; an unregistered name
falls through to `resultErr(cmd.id, "unknown command: ...")`. -/
def dispatch (h : String → CmdMsg → ResultMsg) (cmd : CmdMsg) : ResultMsg :=
  match cmd.cmd with
  | "ls"         => h "ls" cmd
  | "find"       => h "find" cmd
  | "pull"       => h "pull" cmd
  | "push"       => h "push" cmd
  | "rm"         => h "rm" cmd
  | "mkdir"      => h "mkdir" cmd
  | "stat"       => h "stat" cmd
  | "status"     => h "status" cmd
  | "battery"    => h "battery" cmd
  | "location"   => h "location" cmd
  | "screenshot" => h "screenshot" cmd
  | "volume"     => h "volume" cmd
  | "brightness" => h "brightness" cmd
  | "dnd"        => h "dnd" cmd
  | "wifi"       => h "wifi" cmd
  | "clipboard"  => h "clipboard" cmd
  | "lock"       => h "lock" cmd
  | "notifs"     => h "notifs" cmd
  | "sms"        => h "sms" cmd
  | "apps"       => h "apps" cmd
  | "open"       => h "open" cmd
  | "tap"        => h "tap" cmd
  | "swipe"      => h "swipe" cmd
  | "type"       => h "type" cmd
  | "key"        => h "key" cmd
  | "click"      => h "click" cmd
  | "ui"         => h "ui" cmd
  | c            => resultErr cmd.id ("unknown command: " ++ c)

/-! ## Session handshake — `handleClient` in `PhoneSSHService.kt` -/

/-- One line received from the client, after `msgType()` classification:
an `auth` message, a `cmd` message, or anything else (stray line,
unparseable JSON, unexpected type). -/
inductive InMsg where
  | authIn (token : String)
  | cmdIn (c : CmdMsg)
  | otherIn (raw : String)
deriving DecidableEq

/-- One line written by the agent on this connection. -/
inductive OutMsg where
  | helloOut (deviceName fingerprint : String)
  | authOkOut (sessionId : String)
  | authFailOut (error : String)
  | resultOut (r : ResultMsg)

/-- Model of `KeyAuthManager.verifyToken`: `MessageDigest.isEqual` on the UTF-8
bytes of the two strings, i.e. string equality (its constant-time
execution is not part of the functional model). -/
def verifyToken (stored presented : String) : Bool := presented = stored

/-- The command loop of `handleClient`: non-`cmd` lines are skipped, each
`cmd` line is dispatched (handler faults are converted by the
`try`/`catch` into `resultErr`, so dispatch is total) and answered with
exactly one result line.  The list ends when `readLine` returns null. -/
def commandLoop (h : String → CmdMsg → ResultMsg) : List InMsg → List OutMsg
  | [] => []
  | .cmdIn c :: rest => .resultOut (dispatch h c) :: commandLoop h rest
  | .authIn _ :: rest => commandLoop h rest
  | .otherIn _ :: rest => commandLoop h rest

/-- Outcome of one complete `handleClient` run. -/
structure ClientRunResult where
  outputs : List OutMsg
  /-- was `sessions[sessionId] = session` ever executed? -/
  registered : Bool
  /-- is the session still in the registry when the handler returns?
  (the `finally` block always removes it) -/
  inRegistryAtEnd : Bool
  /-- is the socket closed when the handler returns?
  (the `finally` block always calls `session.close()`) -/
  connClosed : Bool

/-- Model of `handleClient` in `PhoneSSHService.kt`, as a function of the finite
list of lines the client sends before the connection ends: send `hello`;
require an `auth` line; on a wrong token reply `auth_fail` and fall to
the `finally` block (close, nothing registered); on success reply
`auth_ok`, register the session and serve the command loop; the
`finally` block always removes the session and closes the socket. -/
def handleClient (h : String → CmdMsg → ResultMsg)
    (stored sid devName fp : String) (input : List InMsg) : ClientRunResult :=
  let hello := OutMsg.helloOut devName fp
  match input with
  | [] =>
      { outputs := [hello], registered := false,
        inRegistryAtEnd := false, connClosed := true }
  | .authIn tok :: rest =>
      if verifyToken stored tok then
        { outputs := hello :: .authOkOut sid :: commandLoop h rest,
          registered := true, inRegistryAtEnd := false, connClosed := true }
      else
        { outputs := [hello, .authFailOut "invalid token"],
          registered := false, inRegistryAtEnd := false, connClosed := true }
  | .cmdIn _ :: _ =>
      { outputs := [hello, .authFailOut "expected auth message"],
        registered := false, inRegistryAtEnd := false, connClosed := true }
  | .otherIn _ :: _ =>
      { outputs := [hello, .authFailOut "expected auth message"],
        registered := false, inRegistryAtEnd := false, connClosed := true }

/-! ## Token rotation — `ACTION_ROTATE_TOKEN` in `PhoneSSHService.kt`

`sessions` is the `ConcurrentHashMap<String, ClientSession>` registry
(session id ↦ the id of the underlying socket); `conns` records for each
socket whether it is still open. -/

/-- The agent-side state touched by token rotation. -/
structure AgentState where
  token : String
  /-- socket id ↦ still open? -/
  conns : List (String × Bool)
  /-- the session registry: session id ↦ socket id -/
  sessions : List (String × String)

/-- Model of `session.close()`: mark the socket of the session closed. -/
def closeConnList (conns : List (String × Bool)) (cid : String) : List (String × Bool) :=
  conns.map (fun p => if p.1 = cid then (p.1, false) else p)

/-- The `ACTION_ROTATE_TOKEN` branch of `onStartCommand`:
`auth.rotateToken()` (a fresh secret), then
`sessions.values.forEach { it.close() }`, then `sessions.clear()`. -/
def rotateTokenAction (st : AgentState) (newToken : String) : AgentState :=
  { token := newToken
    conns := (st.sessions.map Prod.snd).foldl closeConnList st.conns
    sessions := [] }

/-! ## Pairing descriptor — `parsePairURL` in `cmd/pair.go`

`net/url.Parse` is standard-library code; `parsePairURL` only consumes
the parsed scheme, host and query map, so a parsed URL is the input. -/

/-- A parsed URL: scheme, host, and the query parameters in order. -/
structure ParsedURL where
  scheme : String
  host : String
  query : List (String × String)
deriving DecidableEq

/-- Model of `url.Values.Get`: first value for the key, `""` when absent. -/
def queryGet : List (String × String) → String → String
  | [], _ => ""
  | (k, v) :: rest, key => if k = key then v else queryGet rest key

/-- Model of `client.Device` (`cli/client/config.go`): a pairing target. -/
structure Device where
  name : String
  host : String
  port : Int
  token : String
deriving DecidableEq

/-- Model of `strconv.Atoi`: an optional sign followed by decimal digits
(overflow, irrelevant here, is not modelled). -/
def goAtoi (s : String) : Option Int :=
  if s.startsWith "+" then ((s.drop 1).toNat?).map Int.ofNat else s.toInt?

/-- Model of `parsePairURL` in `cmd/pair.go`. -/
def parsePairURL (u : ParsedURL) : Except String Device :=
  if u.scheme ≠ "psh" ∨ u.host ≠ "pair" then
    .error ("expected psh://pair?... URL")
  else
    let host := queryGet u.query "host"
    let portStr := queryGet u.query "port"
    let token := queryGet u.query "token"
    let name := queryGet u.query "name"
    if host = "" ∨ token = "" then
      .error "missing host or token in URL"
    else
      match (if portStr = "" then some ((8765 : Int)) else goAtoi portStr) with
      | none => .error ("invalid port: " ++ portStr)
      | some port =>
          .ok { name := if name = "" then host else name,
                host := host, port := port, token := token }

/-! ## `Cmd` wire codec — round-trip of `json.Marshal` / Gson

The Go client marshals a `CmdMsg` to one JSON object per line; the agent
parses it with Gson into the Kotlin `CmdMsg`.  Serialization is modelled
at the JSON-value level (`JVal`): the sender produces the object with
fields `type`, `id`, `cmd`, `args`, `flags` and — when a payload is
present — `payload` (`payload,omitempty`); the receiver reads those
fields back. -/

/-- Field lookup in a JSON object (first binding wins). -/
def jLookup : List (String × JVal) → String → Option JVal
  | [], _ => none
  | (k, v) :: rest, key => if k = key then some v else jLookup rest key

/-- The JSON object `json.Marshal` produces for a `CmdMsg`. -/
def encodeCmd (c : CmdMsg) : JVal :=
  .jobj
    ([ ("type", .jstr c.type)
     , ("id", .jstr c.id)
     , ("cmd", .jstr c.cmd)
     , ("args", .jarr (c.args.map JVal.jstr))
     , ("flags", .jobj (c.flags.map (fun p => (p.1, JVal.jstr p.2))))
     ] ++ match c.payload with
          | none => []
          | some p => [("payload", .jstr p)])

/-- Decode a JSON array of strings. -/
def decodeStrList : List JVal → Option (List String)
  | [] => some []
  | .jstr s :: rest =>
      match decodeStrList rest with
      | some l => some (s :: l)
      | none => none
  | _ :: _ => none

/-- Decode a JSON object whose values are all strings. -/
def decodeStrPairs : List (String × JVal) → Option (List (String × String))
  | [] => some []
  | (k, .jstr s) :: rest =>
      match decodeStrPairs rest with
      | some l => some ((k, s) :: l)
      | none => none
  | _ :: _ => none

/-- The Gson read of a `CmdMsg` from a JSON object: the string fields
`type`, `id`, `cmd`, the string array `args`, the string map `flags`,
and the optional string `payload` (absent ↦ null/none). -/
def decodeCmd (j : JVal) : Option CmdMsg :=
  match j with
  | .jobj fields =>
      match jLookup fields "type", jLookup fields "id", jLookup fields "cmd",
            jLookup fields "args", jLookup fields "flags" with
      | some (.jstr t), some (.jstr i), some (.jstr c),
        some (.jarr arr), some (.jobj fl) =>
          match decodeStrList arr, decodeStrPairs fl with
          | some args, some flags =>
              match jLookup fields "payload" with
              | none => some { type := t, id := i, cmd := c, args := args,
                               flags := flags, payload := none }
              | some (.jstr p) => some { type := t, id := i, cmd := c, args := args,
                                         flags := flags, payload := some p }
              | some _ => none
          | _, _ => none
      | _, _, _, _, _ => none
  | _ => none

/-! ## Concrete fixtures used by witnesses and counterexamples -/

/-- A trivial concrete handler family: every handler succeeds with an
empty data map. -/
def trivialHandlers : String → CmdMsg → ResultMsg := fun _ c => resultOk c.id []

/-- An agent state with two authenticated sessions on two open sockets. -/
def twoSessionState : AgentState :=
  { token := "old-secret"
    conns := [("c1", true), ("c2", true)]
    sessions := [("s1", "c1"), ("s2", "c2")] }

/-- A model oracle that always answers with one deterministic action. -/
def claudeStatusOracle : List ClaudeMsg → Except String String :=
  fun _ => Except.ok "psh status"

/-- An execution oracle that never captures a screenshot. -/
def execNoShot : Nat → List String → String := fun _ _ => ""

/-- A loaded history of 43 plain turns: saving after one more exchange
would grow it to 45 turns. -/
def history43 : List ClaudeMsg := List.replicate 43 (userTurn "x")

/-- One multimodal (image-bearing) turn. -/
def imageTurnFixture : ClaudeMsg :=
  { role := "user"
    content := .blocks
      [ { blockType := "image", text := "",
          source := some { sourceType := "base64", mediaType := "image/png", data := "AAAA" } } ] }

/-- A `Cmd` whose name is registered nowhere in `CommandRouter`. -/
def unknownCmdFixture : CmdMsg :=
  { type := "cmd", id := "42", cmd := "frobnicate", args := ["x"],
    flags := [("a", "b")], payload := none }

/-- The §8 pairing descriptor with host, token and name but no port. -/
def pixelURL : ParsedURL :=
  { scheme := "psh", host := "pair",
    query := [("host", "10.0.0.5"), ("token", "abc123"), ("name", "Pixel")] }

/-- A pairing descriptor missing its token parameter. -/
def noTokenURL : ParsedURL :=
  { scheme := "psh", host := "pair", query := [("host", "1.2.3.4")] }

/-- A concrete `Cmd` with arguments, flags and a payload. -/
def cmdFixture : CmdMsg :=
  { type := "cmd", id := "1700000000", cmd := "open",
    args := ["https://example.com"], flags := [("x", "1"), ("y", "true")],
    payload := some "QUJD" }

/-! # Theorems -/

/-! ## C1 — token rotation closes every registered session -/

theorem closeConnList_closes (conns : List (String × Bool)) (cid : String) (b : Bool)
    (hmem : (cid, b) ∈ closeConnList conns cid) : b = false := by
  unfold closeConnList at hmem
  obtain ⟨p, hp, he⟩ := List.mem_map.mp hmem
  by_cases hpc : p.1 = cid
  · rw [if_pos hpc] at he
    exact (Prod.ext_iff.mp he).2.symm
  · rw [if_neg hpc] at he
    exact absurd (Prod.ext_iff.mp he).1 hpc

theorem closeConnList_keeps_closed (conns : List (String × Bool)) (c cid : String) (b : Bool)
    (hP : ∀ b', (cid, b') ∈ conns → b' = false)
    (hmem : (cid, b) ∈ closeConnList conns c) : b = false := by
  unfold closeConnList at hmem
  obtain ⟨p, hp, he⟩ := List.mem_map.mp hmem
  by_cases hpc : p.1 = c
  · rw [if_pos hpc] at he
    exact (Prod.ext_iff.mp he).2.symm
  · rw [if_neg hpc] at he
    exact hP b (he ▸ hp)

theorem foldl_close_keeps_closed (l : List String) (conns : List (String × Bool)) (cid : String)
    (hP : ∀ b, (cid, b) ∈ conns → b = false) :
    ∀ b, (cid, b) ∈ l.foldl closeConnList conns → b = false := by
  induction l generalizing conns with
  | nil => exact hP
  | cons c t ih =>
      intro b hb
      exact ih (closeConnList conns c)
        (fun b' hb' => closeConnList_keeps_closed conns c cid b' hP hb') b hb

theorem foldl_close_closes (l : List String) (conns : List (String × Bool)) (cid : String)
    (hcid : cid ∈ l) :
    ∀ b, (cid, b) ∈ l.foldl closeConnList conns → b = false := by
  induction l generalizing conns with
  | nil => exact absurd hcid (List.not_mem_nil cid)
  | cons c t ih =>
      intro b hb
      rcases List.mem_cons.mp hcid with heq | hmem
      · subst heq
        exact foldl_close_keeps_closed t (closeConnList conns cid) cid
          (fun b' hb' => closeConnList_closes conns cid b' hb') b hb
      · exact ih (closeConnList conns c) hmem b hb

/-- C1: after the token-rotation operation, the session registry is empty
and the connection of every session that was registered when rotation
began is closed — for any number of registered sessions. -/
theorem rotateToken_closes_all_and_clears (st : AgentState) (newToken : String)
    (sid cid : String) (b : Bool)
    (hsess : (sid, cid) ∈ st.sessions)
    (hconn : (cid, b) ∈ (rotateTokenAction st newToken).conns) :
    (rotateTokenAction st newToken).sessions = [] ∧ b = false := by
  refine ⟨rfl, ?_⟩
  have hcid : cid ∈ st.sessions.map Prod.snd := List.mem_map_of_mem Prod.snd hsess
  exact foldl_close_closes (st.sessions.map Prod.snd) st.conns cid hcid b hconn

/-- C1 witness: rotating with two active sessions empties the registry
and leaves socket `c1` of session `s1` closed. -/
theorem rotateToken_closes_all_and_clears_witness :
    (rotateTokenAction twoSessionState "new-secret").sessions = [] ∧ false = false :=
  rotateToken_closes_all_and_clears twoSessionState "new-secret" "s1" "c1" false
    (by decide) (by decide)

/-! ## C2 — wrong token: `auth_fail`, close, no registration -/

/-- C2: a connection whose `auth` message carries a token different from
the stored secret gets exactly `hello` then `auth_fail`, its socket is
closed, and no session is ever registered — whatever the client sends
afterwards. -/
theorem wrongToken_authFail_no_session (h : String → CmdMsg → ResultMsg)
    (stored sid devName fp tok : String) (rest : List InMsg)
    (hne : tok ≠ stored) :
    (handleClient h stored sid devName fp (.authIn tok :: rest)).outputs =
        [.helloOut devName fp, .authFailOut "invalid token"]
    ∧ (handleClient h stored sid devName fp (.authIn tok :: rest)).registered = false
    ∧ (handleClient h stored sid devName fp (.authIn tok :: rest)).inRegistryAtEnd = false
    ∧ (handleClient h stored sid devName fp (.authIn tok :: rest)).connClosed = true := by
  simp [handleClient, verifyToken, hne]

/-- C2 witness: a concrete wrong token is rejected without registration. -/
theorem wrongToken_authFail_no_session_witness :
    (handleClient trivialHandlers "secret" "s1" "Pixel" "ab:cd" [.authIn "wrong"]).outputs =
        [.helloOut "Pixel" "ab:cd", .authFailOut "invalid token"]
    ∧ (handleClient trivialHandlers "secret" "s1" "Pixel" "ab:cd" [.authIn "wrong"]).registered = false
    ∧ (handleClient trivialHandlers "secret" "s1" "Pixel" "ab:cd" [.authIn "wrong"]).inRegistryAtEnd = false
    ∧ (handleClient trivialHandlers "secret" "s1" "Pixel" "ab:cd" [.authIn "wrong"]).connClosed = true :=
  wrongToken_authFail_no_session trivialHandlers "secret" "s1" "Pixel" "ab:cd" "wrong" []
    (by decide)

/-! ## C3 — the agentic loop calls the model at most 3 times -/

theorem agenticRounds_calls_le (claude : List ClaudeMsg → Except String String)
    (exec : Nat → List String → String) :
    ∀ (fuel round : Nat) (msgs : List ClaudeMsg),
      (agenticRounds claude exec fuel round msgs).1 ≤ fuel := by
  intro fuel
  induction fuel with
  | zero => intro round msgs; simp [agenticRounds]
  | succ n ih =>
      intro round msgs
      unfold agenticRounds
      cases hc : claude msgs with
      | error e => simp
      | ok resp =>
          simp only
          split
        
          · exact Nat.succ_le_succ (Nat.zero_le n)
          · exact Nat.succ_le_succ (ih (round + 1) _)

/-- C3: one invocation of `runAgenticLoop` makes at most 3
language-model calls, whatever the model replies and whatever the
executed actions produce. -/
theorem agenticLoop_at_most_three_calls (claude : List ClaudeMsg → Except String String)
    (exec : Nat → List String → String)
    (history : List ClaudeMsg) (query : String) (noContext : Bool) :
    (runAgenticLoop claude exec history query noContext).claudeCalls ≤ 3 := by
  have h := agenticRounds_calls_le claude exec 3 0 (history ++ [userTurn query])
  unfold runAgenticLoop
  simp only
  cases hr : (agenticRounds claude exec 3 0 (history ++ [userTurn query])).2 with
  | error e => simpa [hr] using h
  | ok finalResponse =>
      split <;> first
        | simpa using h
        | (split <;> simpa using h)

/-! ## C4 — persisted history is user turn + final response, last 40 kept -/

theorem runAgenticLoop_savedFile_char (claude : List ClaudeMsg → Except String String)
    (exec : Nat → List String → String)
    (history : List ClaudeMsg) (query final : String)
    (hres : (runAgenticLoop claude exec history query false).result = .ok final)
    (hne : final ≠ "") :
    (runAgenticLoop claude exec history query false).savedFile =
      some (saveContextRecords
        ((history ++ [userTurn query, assistantTurn final]).drop ((history.length + 2) - 40))) := by
  unfold runAgenticLoop at hres ⊢
  simp only at hres ⊢
  cases hr : (agenticRounds claude exec 3 0 (history ++ [userTurn query])).2 with
  | error e =>
      rw [hr] at hres
      simp at hres
  | ok resp =>
      simp only [hr] at hres ⊢
      split at hres
      next hcond =>
        have hresp : resp = final := by simpa using hres
        subst hresp
        rw [if_pos hcond]
        simp only
        have hL : (history ++ [userTurn query, assistantTurn resp]).length =
            history.length + 2 := by simp
        by_cases hlen : (history ++ [userTurn query, assistantTurn resp]).length > 40
        · rw [if_pos hlen, hL]
        · rw [if_neg hlen]
          rw [hL] at hlen
          have h0 : history.length + 2 - 40 = 0 := by omega
          rw [h0, List.drop_zero]
      next hcond =>
        have hresp : resp = final := by simpa using hres
        subst hresp
        simp at hcond
        exact absurd hcond hne

/-- C4: when context is enabled and the loop produced a final textual
response, the written context file is the loaded history with the user
turn and the final response appended, truncated to the last 40 turns —
at most 40 records are persisted, and a history that would have grown to
45 turns persists exactly the last 40 of them. -/
theorem agenticLoop_persists_trimmed (claude : List ClaudeMsg → Except String String)
    (exec : Nat → List String → String)
    (history : List ClaudeMsg) (query final : String)
    (hres : (runAgenticLoop claude exec history query false).result = .ok final)
    (hne : final ≠ "") :
    (runAgenticLoop claude exec history query false).savedFile =
      some (saveContextRecords
        ((history ++ [userTurn query, assistantTurn final]).drop ((history.length + 2) - 40)))
    ∧ (saveContextRecords
        ((history ++ [userTurn query, assistantTurn final]).drop ((history.length + 2) - 40))).length ≤ 40
    ∧ (history.length = 43 →
        (runAgenticLoop claude exec history query false).savedFile =
          some (saveContextRecords
            ((history ++ [userTurn query, assistantTurn final]).drop 5))
        ∧ (saveContextRecords
            ((history ++ [userTurn query, assistantTurn final]).drop 5)).length = 40) := by
  have hchar := runAgenticLoop_savedFile_char claude exec history query final hres hne
  have hL : (history ++ [userTurn query, assistantTurn final]).length =
      history.length + 2 := by simp
  refine ⟨hchar, ?_, ?_⟩
  · simp only [saveContextRecords, List.length_map, List.length_drop, hL]
    omega
  · intro h43
    have h5 : history.length + 2 - 40 = 5 := by omega
    refine ⟨by rw [hchar, h5], ?_⟩
    simp only [saveContextRecords, List.length_map, List.length_drop, hL]
    omega

/-- C4 witness: with a loaded history of 43 turns and a one-round
deterministic exchange, exactly the last 40 of the 45 grown turns are
persisted. -/
theorem agenticLoop_persists_trimmed_witness :
    (runAgenticLoop claudeStatusOracle execNoShot history43 "do it" false).savedFile =
      some (saveContextRecords
        ((history43 ++ [userTurn "do it", assistantTurn "psh status"]).drop 5))
    ∧ (saveContextRecords
        ((history43 ++ [userTurn "do it", assistantTurn "psh status"]).drop 5)).length = 40 :=
  (agenticLoop_persists_trimmed claudeStatusOracle execNoShot history43 "do it" "psh status"
    (by rfl) (by decide)).2.2 (by rfl)

/-! ## C5 — only plain text reaches the context file -/

/-- C5: every record the context-store save operation writes has
plain-text content: a text turn keeps its text, and any multimodal
(image-bearing) turn is replaced by the `"[screenshot]"` placeholder, so
raw image data never reaches disk through this path. -/
theorem saveContext_plain_text_only (msgs : List ClaudeMsg) :
    (saveContextRecords msgs).length = msgs.length
    ∧ (∀ (i : Nat) (role : String) (bs : List ContentBlock),
        msgs[i]? = some (ClaudeMsg.mk role (.blocks bs)) →
        (saveContextRecords msgs)[i]? = some (ContextSavedMsg.mk role "[screenshot]"))
    ∧ (∀ (i : Nat) (role s : String),
        msgs[i]? = some (ClaudeMsg.mk role (.str s)) →
        (saveContextRecords msgs)[i]? = some (ContextSavedMsg.mk role s)) := by
  refine ⟨by simp [saveContextRecords], ?_, ?_⟩
  · intro i role bs hi
    simp [saveContextRecords, List.getElem?_map, hi]
  · intro i role s hi
    simp [saveContextRecords, List.getElem?_map, hi]

/-- C5 witness: a concrete image-bearing turn is persisted as the
placeholder record, not as its image data. -/
theorem saveContext_plain_text_only_witness :
    (saveContextRecords [imageTurnFixture])[0]? =
      some (ContextSavedMsg.mk "user" "[screenshot]") :=
  (saveContext_plain_text_only [imageTurnFixture]).2.1 0 "user"
    [ { blockType := "image", text := "",
        source := some { sourceType := "base64", mediaType := "image/png", data := "AAAA" } } ]
    (by rfl)

/-! ## C6 — unknown command names are answered, never thrown -/

/-- C6: for a `Cmd` whose name is registered nowhere in the dispatcher,
dispatch returns (it is a total function) a `Result` with `ok = false`
whose id echoes the request id and whose error names the unknown
command. -/
theorem dispatch_unknown_command (h : String → CmdMsg → ResultMsg) (c : CmdMsg)
    (hc : c.cmd ∉ knownCommands) :
    (dispatch h c).ok = false
    ∧ (dispatch h c).id = c.id
    ∧ (dispatch h c).error = some ("unknown command: " ++ c.cmd) := by
  simp only [knownCommands, List.mem_cons, List.not_mem_nil, or_false, not_or] at hc
  unfold dispatch
  split <;> simp_all [resultErr]

/-- C6 witness: the unregistered name `frobnicate` is answered with a
failing result that echoes id `42` and names the command. -/
theorem dispatch_unknown_command_witness :
    (dispatch trivialHandlers unknownCmdFixture).ok = false
    ∧ (dispatch trivialHandlers unknownCmdFixture).id = unknownCmdFixture.id
    ∧ (dispatch trivialHandlers unknownCmdFixture).error =
        some ("unknown command: " ++ unknownCmdFixture.cmd) :=
  dispatch_unknown_command trivialHandlers unknownCmdFixture (by decide)

/-! ## C7 — tokenizer and flag separation on the §8 example -/

/-- C7: the action line tokenizes with quoted spans kept whole and the
delimiting quotes removed, and flag separation over the tokens after the
command word gives positional `["a b"]` and flags `x="1"`, `y="true"`
(`--x 1` consumes its value because `1` is not a flag; trailing `--y`
gets `"true"`; a flag directly followed by another flag also gets
`"true"`, as the second instance shows). -/
theorem tokenize_and_separate_example :
    parseCommand "open \x22a b\x22 --x 1 --y" = ["open", "a b", "--x", "1", "--y"]
    ∧ separateArgs ["a b", "--x", "1", "--y"] = (["a b"], [("x", "1"), ("y", "true")])
    ∧ separateArgs ["--x", "--y", "1"] = ([], [("x", "true"), ("y", "1")]) := by
  refine ⟨by decide, by decide, by decide⟩

/-! ## C8 — pairing descriptor parsing -/

/-- C8: for a `psh://pair` descriptor, parsing fails whenever the host or
token query parameter is missing; any successfully parsed `Device` takes
port 8765 when the port parameter is absent and its name defaults to the
host when the name parameter is absent; and the concrete §8 descriptor
parses to `{name := "Pixel", host := "10.0.0.5", port := 8765,
token := "abc123"}`. -/
theorem parsePairURL_spec (u : ParsedURL)
    (hs : u.scheme = "psh") (hh : u.host = "pair") :
    ((queryGet u.query "host" = "" ∨ queryGet u.query "token" = "") →
        parsePairURL u = .error "missing host or token in URL")
    ∧ (∀ d : Device, parsePairURL u = .ok d →
        (queryGet u.query "port" = "" → d.port = 8765)
        ∧ (queryGet u.query "name" = "" → d.name = d.host)
        ∧ d.host = queryGet u.query "host"
        ∧ d.token = queryGet u.query "token")
    ∧ parsePairURL pixelURL =
        .ok { name := "Pixel", host := "10.0.0.5", port := 8765, token := "abc123" } := by
  refine ⟨?_, ?_, by rfl⟩
  · intro hmiss
    unfold parsePairURL
    rw [if_neg (by simp [hs, hh])]
    simp only
    rw [if_pos hmiss]
  · intro d hd
    unfold parsePairURL at hd
    rw [if_neg (by simp [hs, hh])] at hd
    simp only at hd
    by_cases hmiss : queryGet u.query "host" = "" ∨ queryGet u.query "token" = ""
    · rw [if_pos hmiss] at hd
      exact absurd hd (by simp)
    · rw [if_neg hmiss] at hd
      by_cases hport : queryGet u.query "port" = ""
      · rw [if_pos hport] at hd
        simp only at hd
        have hd' := hd
        rw [Except.ok.injEq] at hd'
        subst hd'
        refine ⟨fun _ => rfl, fun hname => ?_, rfl, rfl⟩
        simp [hname]
      · rw [if_neg hport] at hd
        cases hat : goAtoi (queryGet u.query "port") with
        | none => rw [hat] at hd; exact absurd hd (by simp)
        | some p =>
            rw [hat] at hd
            simp only at hd
            rw [Except.ok.injEq] at hd
            subst hd
            refine ⟨fun hport0 => absurd hport0 hport, fun hname => ?_, rfl, rfl⟩
            simp [hname]

/-- C8 witness: a descriptor missing its token fails to parse. -/
theorem parsePairURL_spec_witness :
    parsePairURL noTokenURL = .error "missing host or token in URL" :=
  (parsePairURL_spec noTokenURL rfl rfl).1 (Or.inr rfl)

/-! ## C9 — `Cmd` serialize/deserialize round-trip -/

theorem decodeStrList_map (l : List String) :
    decodeStrList (l.map JVal.jstr) = some l := by
  induction l with
  | nil => rfl
  | cons x xs ih => simp [decodeStrList, ih]

theorem decodeStrPairs_map (l : List (String × String)) :
    decodeStrPairs (l.map (fun p => (p.1, JVal.jstr p.2))) = some l := by
  induction l with
  | nil => rfl
  | cons p ps ih =>
      obtain ⟨k, v⟩ := p
      simp [decodeStrPairs, ih]

/-- C9: every valid `Cmd` value — any id, command name, ordered argument
list, string-to-string flag map with unique keys, and optional payload —
survives the serialize-then-deserialize round trip unchanged. -/
theorem cmd_roundtrip (c : CmdMsg) (hkeys : (c.flags.map Prod.fst).Nodup) :
    decodeCmd (encodeCmd c) = some c := by
  obtain ⟨t, i, cm, args, flags, payload⟩ := c
  cases payload with
  | none =>
      simp [encodeCmd, decodeCmd, jLookup, decodeStrList_map, decodeStrPairs_map]
  | some p =>
      simp [encodeCmd, decodeCmd, jLookup, decodeStrList_map, decodeStrPairs_map]

/-- C9 witness: a concrete `Cmd` with arguments, two flags and a payload
round-trips to itself. -/
theorem cmd_roundtrip_witness :
    decodeCmd (encodeCmd cmdFixture) = some cmdFixture :=
  cmd_roundtrip cmdFixture (by decide)

/-! ## C10 — tokenizer totality, delimiter removal, unterminated quotes -/

theorem parseCommandAux_tokens_ne :
    ∀ (cs : List Char) (inQ : Bool) (qc : Char) (cur : String) (parts : List String),
      (∀ t ∈ parts, t ≠ "") → ∀ t ∈ parseCommandAux cs inQ qc cur parts, t ≠ ""
  | [], inQ, qc, cur, parts => by
      intro hparts t ht
      unfold parseCommandAux at ht
      split at ht
      next hlen =>
        rcases List.mem_append.mp ht with hmem | hmem
        · exact hparts t hmem
        · have hteq : t = cur := by simpa using hmem
          subst hteq
          intro heq
          rw [heq] at hlen
          simp at hlen
      next => exact hparts t ht
  | r :: rest, inQ, qc, cur, parts => by
      intro hparts t ht
      unfold parseCommandAux at ht
      split at ht
      next => exact parseCommandAux_tokens_ne rest true r cur parts hparts t ht
      next =>
        split at ht
        next => exact parseCommandAux_tokens_ne rest false qc cur parts hparts t ht
        next =>
          split at ht
          next =>
            split at ht
            next hlen =>
              refine parseCommandAux_tokens_ne rest inQ qc "" (parts ++ [cur]) ?_ t ht
              intro u hu
              rcases List.mem_append.mp hu with hmem | hmem
              · exact hparts u hmem
              · have hueq : u = cur := by simpa using hmem
                subst hueq
                intro heq
                rw [heq] at hlen
                simp at hlen
            next => exact parseCommandAux_tokens_ne rest inQ qc "" parts hparts t ht
          next => exact parseCommandAux_tokens_ne rest inQ qc (cur.push r) parts hparts t ht

theorem parseCommandAux_default_step (r : Char) (rest : List Char) (qc : Char)
    (cur : String) (parts : List String)
    (h1 : ¬(r = dquoteChar ∨ r = squoteChar)) (h2 : r ≠ ' ') :
    parseCommandAux (r :: rest) false qc cur parts =
      parseCommandAux rest false qc (cur.push r) parts := by
  conv_lhs => unfold parseCommandAux
  rw [if_neg (by simp [h1]), if_neg (by simp), if_neg (by simp [h2])]

theorem parseCommandAux_quote_entry (r : Char) (rest : List Char) (qc : Char)
    (cur : String) (parts : List String)
    (h1 : r = dquoteChar ∨ r = squoteChar) :
    parseCommandAux (r :: rest) false qc cur parts =
      parseCommandAux rest true r cur parts := by
  conv_lhs => unfold parseCommandAux
  rw [if_pos (by simp [h1])]

theorem parseCommandAux_inQuote_run :
    ∀ (cs : List Char) (qc : Char) (cur : String) (parts : List String), qc ∉ cs →
      parseCommandAux cs true qc cur parts =
        if (cur.data ++ cs).length > 0 then parts ++ [String.mk (cur.data ++ cs)] else parts
  | [], qc, cur, parts => by
      intro _
      unfold parseCommandAux
      rw [List.append_nil]
      rfl
  | c :: rest, qc, cur, parts => by
      intro h
      have hc : c ≠ qc := fun he => h (he ▸ List.mem_cons_self c rest)
      have hrest : qc ∉ rest := fun hm => h (List.mem_cons_of_mem c hm)
      unfold parseCommandAux
      rw [if_neg (by simp), if_neg (by simp [hc]), if_neg (by simp)]
      rw [parseCommandAux_inQuote_run rest qc (cur.push c) parts hrest]
      have hpush : (cur.push c).data = cur.data ++ [c] := rfl
      rw [hpush, List.append_assoc, List.singleton_append]

theorem parseCommandAux_plain_run :
    ∀ (as rest : List Char) (qc : Char) (cur : String) (parts : List String),
      (∀ c ∈ as, c ≠ ' ' ∧ c ≠ dquoteChar ∧ c ≠ squoteChar) →
      parseCommandAux (as ++ rest) false qc cur parts =
        parseCommandAux rest false qc (String.mk (cur.data ++ as)) parts
  | [], rest, qc, cur, parts => by
      intro _
      simp
  | a :: as, rest, qc, cur, parts => by
      intro h
      have ha := h a (List.mem_cons_self a as)
      have has : ∀ c ∈ as, c ≠ ' ' ∧ c ≠ dquoteChar ∧ c ≠ squoteChar :=
        fun c hm => h c (List.mem_cons_of_mem a hm)
      show parseCommandAux (a :: (as ++ rest)) false qc cur parts = _
      rw [parseCommandAux_default_step a (as ++ rest) qc cur parts
        (by simp [ha.2.1, ha.2.2]) ha.1]
      rw [parseCommandAux_plain_run as rest qc (cur.push a) parts has]
      have hpush : (cur.push a).data = cur.data ++ [a] := rfl
      rw [hpush, List.append_assoc, List.singleton_append]

/-- C10 counterexample: the produced tokens are not free of quote
characters: when a double quote sits inside a single-quoted span it
survives into the produced token. -/
theorem parseCommand_retains_inner_quote :
    parseCommand "\x27a\x22b\x27" = ["a\x22b"]
    ∧ ¬(∀ (s t : String), t ∈ parseCommand s →
          dquoteChar ∉ t.data ∧ squoteChar ∉ t.data) := by
  refine ⟨by decide, fun h => ?_⟩
  have hq := (h "\x27a\x22b\x27" "a\x22b" (by decide)).1
  exact hq (by decide)

/-- C10 (amended): for every input string `parseCommand` terminates and
returns a token list without error; every produced token is non-empty;
the quote characters that delimit quoted spans are removed from the
produced tokens (a quote character of the other kind inside a quoted
span is preserved); and an unterminated quote is not a failure — the
remainder of the string after the opening quote, including any spaces,
becomes part of the final token. -/
theorem parseCommand_total_and_unterminated (a b : String)
    (ha0 : a ≠ "")
    (ha : ∀ c ∈ a.data, c ≠ ' ' ∧ c ≠ dquoteChar ∧ c ≠ squoteChar)
    (hb : dquoteChar ∉ b.data) :
    (∀ (s t : String), t ∈ parseCommand s → t ≠ "")
    ∧ parseCommand (a ++ String.mk [dquoteChar] ++ b) = [a ++ b] := by
  constructor
  · intro s t ht
    exact parseCommandAux_tokens_ne s.data false (Char.ofNat 0) "" []
      (by intro u hu; exact absurd hu (List.not_mem_nil u)) t ht
  · have hane : a.data ≠ [] := by
      intro hnil
      exact ha0 (congrArg String.mk hnil)
    unfold parseCommand
    have hdata : (a ++ String.mk [dquoteChar] ++ b).data =
        a.data ++ (dquoteChar :: b.data) := by
      show (a.data ++ [dquoteChar]) ++ b.data = _
      rw [List.append_assoc, List.singleton_append]
    rw [hdata]
    rw [parseCommandAux_plain_run a.data (dquoteChar :: b.data) (Char.ofNat 0) "" [] ha]
    show parseCommandAux (dquoteChar :: b.data) false (Char.ofNat 0) a [] = [a ++ b]
    rw [parseCommandAux_quote_entry dquoteChar b.data (Char.ofNat 0) a [] (Or.inl rfl)]
    rw [parseCommandAux_inQuote_run b.data dquoteChar a [] hb]
    rw [if_pos (by
      have : 0 < a.data.length := List.length_pos.mpr hane
      simp only [List.length_append]
      omega)]
    rfl

/-- C10 witness: a concrete unterminated quote — the remainder after the
opening quote, spaces included, becomes part of the final token, and the
token is non-empty. -/
theorem parseCommand_total_and_unterminated_witness :
    (("open" : String) ≠ "")
    ∧ parseCommand ("open" ++ String.mk [dquoteChar] ++ "a b c") = ["open" ++ "a b c"] :=
  ⟨by decide,
   (parseCommand_total_and_unterminated "open" "a b c" (by decide) (by decide) (by decide)).2⟩
